import Mathlib

/-!
# cmd/notary: a shallow embedding of `main.go`

The command `notary` hashes a file (or accepts a pre-computed SHA-512 value in
hex), and either builds a Roughtime chain for that nonce or, with `-verify`,
checks a chain read from standard input against it.

Go strings and byte slices are sequences of bytes (`List Nat`, every entry
below 256).  The functions of package `roughtime`, the operating system and
`crypto/sha512` lie outside `main.go`; they are taken as parameters
(`Roughtime`, `Env`).  The standard-library functions whose behaviour the
program depends on (`encoding/hex`, `bytes.Compare`, `fmt.Printf`) are
transcribed from the Go standard library.
-/

set_option linter.unusedVariables false

namespace Notary

/-! ## Bytes, slices, errors -/

/-- The contents of a Go string or byte slice. -/
abbrev Bytes := List Nat

/-- The bytes of an ASCII string literal of the program. -/
def str (s : String) : Bytes := s.toList.map Char.toNat

/-- A Go value of type `[]byte`: the nil slice, or a non-nil slice with contents. -/
inductive Slice where
  | nil
  | mk (bs : Bytes)
deriving DecidableEq, Repr

/-- The contents of a slice; the nil slice has none. -/
def Slice.bytes : Slice → Bytes
  | .nil => []
  | .mk bs => bs

/-- Go `len(s)`. -/
def Slice.len (s : Slice) : Nat := s.bytes.length

/-- A Go `error` value that is not nil. -/
inductive Error where
  /-- Go `errors.New(text)` -/
  | new (text : String)
  /-- Go `hex.InvalidByteError(b)` -/
  | invalidByte (b : Nat)
  /-- Go `hex.ErrLength` -/
  | errLength
  /-- An error produced by the operating system, `io` or package `roughtime` -/
  | ext (text : String)
deriving DecidableEq, Repr

/-! ## `bytes.Compare` -/

/-- Lexicographic comparison of two byte sequences: -1, 0 or +1. -/
def compareBytes : Bytes → Bytes → Int
  | [], [] => 0
  | [], _ :: _ => -1
  | _ :: _, [] => 1
  | x :: xs, y :: ys =>
    if x < y then -1 else if y < x then 1 else compareBytes xs ys

/-- Go `bytes.Compare(a, b)`; a nil argument is equivalent to an empty slice. -/
def Compare (a b : Slice) : Int := compareBytes a.bytes b.bytes

/-! ## `encoding/hex` -/

/-- Go `hex.fromHexChar`: the value of a hexadecimal digit, if it is one. -/
def fromHexChar (c : Nat) : Option Nat :=
  if 48 ≤ c ∧ c ≤ 57 then some (c - 48)
  else if 97 ≤ c ∧ c ≤ 102 then some (c - 97 + 10)
  else if 65 ≤ c ∧ c ≤ 70 then some (c - 65 + 10)
  else none

/-- Go `hex.Decode`: the bytes decoded before the first problem, and the error.
Each pair of digits `p q` gives the byte `(a << 4) | b`. -/
def hexDecode : Bytes → Bytes × Option Error
  | [] => ([], none)
  | [p] =>
    match fromHexChar p with
    | none => ([], some (.invalidByte p))
    | some _ => ([], some .errLength)
  | p :: q :: rest =>
    match fromHexChar p with
    | none => ([], some (.invalidByte p))
    | some a =>
      match fromHexChar q with
      | none => ([], some (.invalidByte q))
      | some b => ((((a <<< 4) ||| b) % 256) :: (hexDecode rest).1, (hexDecode rest).2)

/-- Go `hex.DecodeString`: returns `src[:n], err`, a non-nil slice in every case. -/
def DecodeString (s : Bytes) : Slice × Option Error :=
  (.mk (hexDecode s).1, (hexDecode s).2)

/-! ## The environment of a run -/

/-- An `io.Reader`: the bytes it yields, followed by end of file (`err = none`)
or by a read error. -/
structure Reader where
  data : Bytes
  err : Option Error
deriving DecidableEq, Repr

/-- Go `strings.NewReader(s)`. -/
def NewReader (s : Bytes) : Reader := ⟨s, none⟩

/-- The parsed command line (`flag.Parse`): the three flags and the positional
arguments. -/
structure Flags where
  verify : Bool
  serversJSON : Bytes
  hashParam : Bytes
  args : List Bytes

/-- Go `flag.NArg()`. -/
def Flags.NArg (fl : Flags) : Nat := fl.args.length

/-- Go `flag.Arg(i)`: the i-th positional argument, or the empty string. -/
def Flags.Arg (fl : Flags) (i : Nat) : Bytes := fl.args.getD i []

/-- What the program reads from outside: the file system (`os.Open`, a map from
file name to a readable file or an open error), standard input, and the
SHA-512 function of `crypto/sha512`. -/
structure Env where
  fileOpen : Bytes → Except Error Reader
  stdin : Reader
  sha512 : Bytes → Bytes

/-- Modelled from the spec: `config.ServersJSON` is declared outside `main.go`;
an address entry of a server has a protocol and a `host:port` address. -/
structure Address where
  protocol : Bytes
  address : Bytes
deriving DecidableEq, Repr

/-- Modelled from the spec: a server entry of `config.ServersJSON`, with the
public key as the base64 text of the document. -/
structure Server where
  name : Bytes
  publicKeyType : Bytes
  publicKey : Bytes
  addresses : List Address
deriving DecidableEq, Repr

/-- Modelled from the spec: `config.ServersJSON`, the ordered list of servers. -/
structure ServersJSON where
  servers : List Server
deriving DecidableEq, Repr

/-- Modelled from the spec: `config.Link` is declared outside `main.go`; `main`
reads only `NonceOrBlind`. -/
structure Link where
  serverName : Bytes
  NonceOrBlind : Slice
  rawResponse : Bytes
deriving DecidableEq, Repr

/-- Modelled from the spec: `config.Chain`, the ordered sequence of links. -/
structure Chain where
  Links : List Link
deriving DecidableEq, Repr

/-- The functions of package `roughtime` that `main.go` calls, as abstract
functions returning Go result pairs.  `Chain` returns what it wrote to the
writer it was given, and its error. -/
structure Roughtime where
  ReadServersJSON : Reader → Option ServersJSON × Option Error
  LoadChain : Reader → Chain × Option Error
  VerifyChain : Chain → Option ServersJSON → Bytes × Option Error
  Chain : Option ServersJSON → Slice → Bytes × Option Error

/-! ## `hashFile`, `hashExternal`, `serverList` -/

/-- Go `hashFile(name)`: opens `flag.Arg(0)`, copies the file into a SHA-512
hash and returns the digest. -/
def hashFile (env : Env) (fl : Flags) (name : Bytes) : Slice × Option Error :=
  match env.fileOpen (fl.Arg 0) with
  | .error err => (.nil, some err)
  | .ok f =>
    match f.err with
    | some err => (.nil, some err)
    | none => (.mk (env.sha512 f.data), none)

/-- Go `hashExternal(hashParam, name)`. -/
def hashExternal (env : Env) (fl : Flags) (hashParam name : Bytes) : Slice × Option Error :=
  if hashParam.length > 0 then
    if hashParam.length = 128 then
      DecodeString hashParam
    else
      (.nil, some (.new "invalid sha512 hash value in hex"))
  else
    hashFile env fl name

/-- The text of the Go variable `defaultServers`. -/
def defaultServersText : String :=
  "\x7b\n" ++
  "\t\"servers\": [\n" ++
  "\t\t\x7b\n" ++
  "\t\t\t\"name\": \"Google\",\n" ++
  "\t\t\t\"publicKeyType\": \"ed25519\",\n" ++
  "\t\t\t\"publicKey\": \"etPaaIxcBMY1oUeGpwvPMCJMwlRVNxv51KK/tktoJTQ=\",\n" ++
  "\t\t\t\"addresses\": [\n" ++
  "\t\t\t\t\x7b\n" ++
  "\t\t\t\t\t\"protocol\": \"udp\",\n" ++
  "\t\t\t\t\t\"address\": \"roughtime.sandbox.google.com:2002\"\n" ++
  "\t\t\t\t\x7d\n" ++
  "\t\t\t]\n" ++
  "\t\t\x7d,\n" ++
  "\t\t\x7b\n" ++
  "\t\t\t\"name\": \"Cloudflare\",\n" ++
  "\t\t\t\"publicKeyType\": \"ed25519\",\n" ++
  "\t\t\t\"publicKey\": \"gD63hSj3ScS+wuOeGrubXlq35N1c5Lby/S+T7MNTjxo=\",\n" ++
  "\t\t\t\"addresses\": [\n" ++
  "\t\t\t\t\x7b\n" ++
  "\t\t\t\t\t\"protocol\": \"udp\",\n" ++
  "\t\t\t\t\t\"address\": \"roughtime.cloudflare.com:2002\"\n" ++
  "\t\t\t\t\x7d\n" ++
  "\t\t\t]\n" ++
  "\t\t\x7d\n" ++
  "\t]\n" ++
  "\x7d"

/-- Go `defaultServers`, as the bytes of the string. -/
def defaultServers : Bytes := str defaultServersText

/-- Go `serverList(name)`. -/
def serverList (env : Env) (rt : Roughtime) (name : Bytes) : Option ServersJSON × Option Error :=
  let r := NewReader defaultServers
  if name ≠ [] then
    match env.fileOpen name with
    | .error err => (none, some err)
    | .ok f => rt.ReadServersJSON f
  else
    rt.ReadServersJSON r

/-! ## `fmt.Printf` with a format string and no operands

`main` calls `fmt.Printf(info)`.  The functions below transcribe `doPrintf` of
`fmt/print.go` for an empty operand list: `argNum` stays 0 and every verb
other than `%%` finds no operand. -/

/-- Go `utf8.DecodeRuneInString`, reduced to the width of a well-formed first
rune; `none` stands for the result `(RuneError, 1)`. -/
def runeWidth (s : Bytes) : Option Nat :=
  match s with
  | [] => none
  | s0 :: t =>
    if s0 < 128 then some 1
    else if s0 < 194 then none
    else if s0 < 224 then
      match t with
      | s1 :: _ => if 128 ≤ s1 ∧ s1 ≤ 191 then some 2 else none
      | _ => none
    else if s0 < 240 then
      match t with
      | s1 :: s2 :: _ =>
        let lo := if s0 = 224 then 160 else 128
        let hi := if s0 = 237 then 159 else 191
        if lo ≤ s1 ∧ s1 ≤ hi ∧ 128 ≤ s2 ∧ s2 ≤ 191 then some 3 else none
      | _ => none
    else if s0 < 245 then
      match t with
      | s1 :: s2 :: s3 :: _ =>
        let lo := if s0 = 240 then 144 else 128
        let hi := if s0 = 244 then 143 else 191
        if lo ≤ s1 ∧ s1 ≤ hi ∧ 128 ≤ s2 ∧ s2 ≤ 191 ∧ 128 ≤ s3 ∧ s3 ≤ 191 then some 4 else none
      | _ => none
    else none

/-- The verb at the head of `s`: the bytes `writeRune(verb)` appends and the
number of bytes of the format it takes.  An ill-formed rune is written as
U+FFFD and takes one byte. -/
def decodeVerb (s : Bytes) : Bytes × Nat :=
  match runeWidth s with
  | some n => (s.take n, n)
  | none => ([239, 191, 189], 1)

/-- The loop of Go `fmt.parsenum`. -/
def parsenumLoop (s : Bytes) (stop : Nat) : Nat → Nat → Bool → Nat → Nat × Bool × Nat
  | 0, num, isnum, newi => (num, isnum, newi)
  | fuel + 1, num, isnum, newi =>
    if newi < stop ∧ 48 ≤ s.getD newi 0 ∧ s.getD newi 0 ≤ 57 then
      if num > 1000000 then (0, false, stop)
      else parsenumLoop s stop fuel (num * 10 + (s.getD newi 0 - 48)) true (newi + 1)
    else (num, isnum, newi)

/-- Go `fmt.parsenum(s, start, end)`: `(num, isnum, newi)`. -/
def parsenum (s : Bytes) (start stop : Nat) : Nat × Bool × Nat :=
  if start ≥ stop then (0, false, stop)
  else parsenumLoop s stop (stop - start) 0 false start

/-- Go `fmt.parseArgNumber(format)`, without the index (never in range when
there are no operands): `(wid, ok)`. -/
def parseArgNumber (format : Bytes) : Nat × Bool :=
  if format.length < 3 then (1, false)
  else
    match (format.drop 1).indexOf? 93 with
    | none => (1, false)
    | some k =>
      let i := k + 1
      let r := parsenum format 1 i
      if !r.2.1 || r.2.2 != i then (i + 1, false) else (i + 1, true)

/-- Go `(*pp).argNumber` with `numArgs = 0`: the new position, `found`, and the
new value of `goodArgNum`. -/
def argNumber (format : Bytes) (i : Nat) (good : Bool) : Nat × Bool × Bool :=
  if format.length ≤ i ∨ format.getD i 0 ≠ 91 then (i, false, good)
  else
    let r := parseArgNumber (format.drop i)
    (i + r.1, r.2, false)

/-- The flag characters `#`, `0`, `+`, `-` and space. -/
def isFlag (c : Nat) : Bool := c = 35 || c = 48 || c = 43 || c = 45 || c = 32

/-- One verb of `doPrintf`, from the position after its `%`: what is written,
and where the format continues (`none` after `%!(NOVERB)`). -/
def doVerb (format : Bytes) (i0 : Nat) : Bytes × Option Nat :=
  let stop := format.length
  -- flags
  let i := i0 + ((format.drop i0).takeWhile isFlag).length
  -- explicit argument index
  let a1 := argNumber format i true
  let i := a1.1
  let afterIndex := a1.2.1
  let good := a1.2.2
  -- width
  let w : Bytes × Nat × Bool × Bool :=
    if i < stop ∧ format.getD i 0 = 42 then
      (str "%!(BADWIDTH)", i + 1, false, good)
    else
      let r := parsenum format i stop
      ([], r.2.2, afterIndex, if afterIndex && r.2.1 then false else good)
  let out := w.1
  let i := w.2.1
  let afterIndex := w.2.2.1
  let good := w.2.2.2
  -- precision
  let p : Bytes × Nat × Bool × Bool :=
    if i + 1 ≤ stop ∧ format.getD i 0 = 46 then
      let good := if afterIndex then false else good
      let a2 := argNumber format (i + 1) good
      if a2.1 < stop ∧ format.getD a2.1 0 = 42 then
        (str "%!(BADPREC)", a2.1 + 1, false, a2.2.2)
      else
        ([], (parsenum format a2.1 stop).2.2, a2.2.1, a2.2.2)
    else ([], i, afterIndex, good)
  let out := out ++ p.1
  let i := p.2.1
  let afterIndex := p.2.2.1
  let good := p.2.2.2
  let a3 := if !afterIndex then argNumber format i good else (i, afterIndex, good)
  let i := a3.1
  let good := a3.2.2
  if i ≥ stop then (out ++ str "%!(NOVERB)", none)
  else
    let v := decodeVerb (format.drop i)
    if format.getD i 0 = 37 then (out ++ [37], some (i + v.2))
    else if !good then (out ++ str "%!" ++ v.1 ++ str "(BADINDEX)", some (i + v.2))
    else (out ++ str "%!" ++ v.1 ++ str "(MISSING)", some (i + v.2))

/-- The format loop of `doPrintf` from position `i`: literal text up to the
next `%` is copied, then one verb is processed. -/
def doPrintfLoop (format : Bytes) : Nat → Nat → Bytes
  | 0, _ => []
  | fuel + 1, lasti =>
    let lit := (format.drop lasti).takeWhile (fun c => c != 37)
    let i := lasti + lit.length
    if i ≥ format.length then lit
    else
      match doVerb format (i + 1) with
      | (out, none) => lit ++ out
      | (out, some j) => lit ++ out ++ doPrintfLoop format fuel j

/-- What Go `fmt.Printf(format)` writes to standard output.  Every round of the
loop takes at least the `%` it stopped at, so `length + 1` rounds suffice. -/
def Printf (format : Bytes) : Bytes := doPrintfLoop format (format.length + 1) 0

/-! ## `main` -/

/-- The steps of `main` that a run performed, in order. -/
inductive Step where
  | serverList
  | hashExternal
  | LoadChain
  | VerifyChain
  | nonceCheck
  | Printf
  | Chain
deriving DecidableEq, Repr

/-- How a run ends: `main` returns, or `log.Fatal` writes a message to standard
error and exits with status 1. -/
inductive Exit where
  | returned
  /-- Go `log.Fatalf` with the usage line -/
  | fatalUsage
  /-- Go `log.Fatal(err)` -/
  | fatalErr (err : Error)
  /-- Go `log.Fatal(text)` -/
  | fatalMsg (text : String)
deriving DecidableEq, Repr

/-- A run of the program: the steps performed, the bytes written to standard
output, and how it ended. -/
structure Run where
  steps : List Step
  stdout : Bytes
  exit : Exit
deriving DecidableEq, Repr

/-- Go `main`, after `flag.Parse`. -/
def main (env : Env) (rt : Roughtime) (fl : Flags) : Run :=
  if fl.NArg < 1 then ⟨[], [], .fatalUsage⟩
  else
    match serverList env rt fl.serversJSON with
    | (_, some err) => ⟨[.serverList], [], .fatalErr err⟩
    | (servers, none) =>
      match hashExternal env fl fl.hashParam (fl.Arg 0) with
      | (_, some err) => ⟨[.serverList, .hashExternal], [], .fatalErr err⟩
      | (nonce, none) =>
        if fl.verify then
          match rt.LoadChain env.stdin with
          | (_, some err) => ⟨[.serverList, .hashExternal, .LoadChain], [], .fatalErr err⟩
          | (c, none) =>
            match rt.VerifyChain c servers with
            | (_, some err) =>
              ⟨[.serverList, .hashExternal, .LoadChain, .VerifyChain], [], .fatalErr err⟩
            | (info, none) =>
              match c.Links with
              | [] =>
                ⟨[.serverList, .hashExternal, .LoadChain, .VerifyChain, .nonceCheck], [],
                  .fatalMsg "chain nonce does not match file"⟩
              | l :: _ =>
                if Compare l.NonceOrBlind nonce ≠ 0 then
                  ⟨[.serverList, .hashExternal, .LoadChain, .VerifyChain, .nonceCheck], [],
                    .fatalMsg "chain nonce does not match file"⟩
                else
                  ⟨[.serverList, .hashExternal, .LoadChain, .VerifyChain, .nonceCheck, .Printf],
                    Printf info, .returned⟩
        else
          match rt.Chain servers nonce with
          | (out, some err) => ⟨[.serverList, .hashExternal, .Chain], out, .fatalErr err⟩
          | (out, none) => ⟨[.serverList, .hashExternal, .Chain], out, .returned⟩

/-! ## Hexadecimal digits and letter case, as the specification speaks of them -/

/-- The digits `0-9a-f`. -/
def hexDigitsLower : Bytes := str "0123456789abcdef"

/-- The digits `0-9A-F`. -/
def hexDigitsUpper : Bytes := str "0123456789ABCDEF"

/-- A byte is a hexadecimal digit: one of `0-9`, `a-f`, `A-F`. -/
def isHexDigit (c : Nat) : Prop := c ∈ hexDigitsLower ∨ c ∈ hexDigitsUpper

instance (c : Nat) : Decidable (isHexDigit c) := by unfold isHexDigit; infer_instance

/-- The value of a hexadecimal digit: its position among the sixteen digits. -/
def hexValue (c : Nat) : Nat :=
  if c ∈ hexDigitsLower then hexDigitsLower.indexOf c else hexDigitsUpper.indexOf c

/-- The upper-case form of an ASCII letter; other bytes are unchanged. -/
def upperByte (c : Nat) : Nat := if 97 ≤ c ∧ c ≤ 122 then c - 32 else c

/-- The lower-case form of an ASCII letter; other bytes are unchanged. -/
def lowerByte (c : Nat) : Nat := if 65 ≤ c ∧ c ≤ 90 then c + 32 else c

/-- The upper-cased form of a string. -/
def toUpper (s : Bytes) : Bytes := s.map upperByte

/-- The lower-cased form of a string. -/
def toLower (s : Bytes) : Bytes := s.map lowerByte

/-! ## Reading the `defaultServers` document: JSON, base64, `host:port` -/

/-- A JSON value (RFC 8259); strings are kept as bytes, numbers as their text. -/
inductive JsonValue where
  | null
  | bool (b : Bool)
  | num (text : Bytes)
  | str (s : Bytes)
  | arr (items : List JsonValue)
  | obj (members : List (Bytes × JsonValue))

/-- JSON white space: space, tab, line feed, carriage return. -/
def isWs (c : Nat) : Bool := c = 32 || c = 9 || c = 10 || c = 13

/-- Drop leading white space. -/
def skipWs (cs : Bytes) : Bytes := cs.dropWhile isWs

/-- The body of a JSON string, after the opening quote: the string read (in
reverse in `acc`) and the text after the closing quote.  The two-character
escapes are decoded; `\u` escapes and raw control characters are refused. -/
def parseString : Bytes → Bytes → Option (Bytes × Bytes)
  | [], _ => none
  | 34 :: rest, acc => some (acc.reverse, rest)
  | 92 :: e :: rest, acc =>
    if e = 34 ∨ e = 92 ∨ e = 47 then parseString rest (e :: acc)
    else if e = 98 then parseString rest (8 :: acc)
    else if e = 102 then parseString rest (12 :: acc)
    else if e = 110 then parseString rest (10 :: acc)
    else if e = 114 then parseString rest (13 :: acc)
    else if e = 116 then parseString rest (9 :: acc)
    else none
  | c :: rest, acc => if c < 32 ∨ c = 92 then none else parseString rest (c :: acc)

/-- A character of a JSON number: a digit, a sign, the point or the exponent mark. -/
def isNumChar (c : Nat) : Bool :=
  (48 ≤ c && c ≤ 57) || c = 45 || c = 43 || c = 46 || c = 101 || c = 69

mutual
/-- One JSON value at the head of the text, and the text after it. -/
def parseValue : Nat → Bytes → Option (JsonValue × Bytes)
  | 0, _ => none
  | fuel + 1, cs =>
    match skipWs cs with
    | 34 :: rest =>
      match parseString rest [] with
      | some (s, r) => some (.str s, r)
      | none => none
    | 91 :: rest =>
      match skipWs rest with
      | 93 :: r => some (.arr [], r)
      | _ =>
        match parseElems fuel rest with
        | some (xs, r) => some (.arr xs, r)
        | none => none
    | 123 :: rest =>
      match skipWs rest with
      | 125 :: r => some (.obj [], r)
      | _ =>
        match parseMembers fuel rest with
        | some (ms, r) => some (.obj ms, r)
        | none => none
    | 116 :: 114 :: 117 :: 101 :: r => some (.bool true, r)
    | 102 :: 97 :: 108 :: 115 :: 101 :: r => some (.bool false, r)
    | 110 :: 117 :: 108 :: 108 :: r => some (.null, r)
    | c :: rest =>
      if isNumChar c then
        some (.num ((c :: rest).takeWhile isNumChar), (c :: rest).dropWhile isNumChar)
      else none
    | [] => none
/-- The elements of a non-empty array, up to and including the closing bracket. -/
def parseElems : Nat → Bytes → Option (List JsonValue × Bytes)
  | 0, _ => none
  | fuel + 1, cs =>
    match parseValue fuel cs with
    | none => none
    | some (v, r) =>
      match skipWs r with
      | 44 :: r2 =>
        match parseElems fuel r2 with
        | some (vs, r3) => some (v :: vs, r3)
        | none => none
      | 93 :: r2 => some ([v], r2)
      | _ => none
/-- The members of a non-empty object, up to and including the closing brace. -/
def parseMembers : Nat → Bytes → Option (List (Bytes × JsonValue) × Bytes)
  | 0, _ => none
  | fuel + 1, cs =>
    match skipWs cs with
    | 34 :: rest =>
      match parseString rest [] with
      | none => none
      | some (k, r) =>
        match skipWs r with
        | 58 :: r1 =>
          match parseValue fuel r1 with
          | none => none
          | some (v, r2) =>
            match skipWs r2 with
            | 44 :: r3 =>
              match parseMembers fuel r3 with
              | some (ms, r4) => some ((k, v) :: ms, r4)
              | none => none
            | 125 :: r3 => some ([(k, v)], r3)
            | _ => none
        | _ => none
    | _ => none
end

/-- A whole JSON text: one value, with nothing but white space after it. -/
def parseJson (text : Bytes) : Option JsonValue :=
  match parseValue (text.length + 1) text with
  | some (v, rest) => if skipWs rest = [] then some v else none
  | none => none

/-- The member of an object with the given name. -/
def member (k : Bytes) : List (Bytes × JsonValue) → Option JsonValue
  | [] => none
  | (k1, v) :: ms => if k1 = k then some v else member k ms

/-- The string member of an object with the given name. -/
def stringMember (k : Bytes) (ms : List (Bytes × JsonValue)) : Option Bytes :=
  match member k ms with
  | some (.str s) => some s
  | _ => none

/-- Apply a reader to every item of a list; all must succeed. -/
def readAll {α β : Type} (f : α → Option β) : List α → Option (List β)
  | [] => some []
  | x :: xs =>
    match f x, readAll f xs with
    | some y, some ys => some (y :: ys)
    | _, _ => none

/-- An address entry: an object with string members `protocol` and `address`. -/
def readAddress : JsonValue → Option Address
  | .obj ms =>
    match stringMember (str "protocol") ms, stringMember (str "address") ms with
    | some p, some a => some ⟨p, a⟩
    | _, _ => none
  | _ => none

/-- A server entry: an object with string members `name`, `publicKeyType`,
`publicKey` and an array member `addresses`. -/
def readServer : JsonValue → Option Server
  | .obj ms =>
    match stringMember (str "name") ms, stringMember (str "publicKeyType") ms,
      stringMember (str "publicKey") ms, member (str "addresses") ms with
    | some n, some t, some k, some (.arr items) =>
      match readAll readAddress items with
      | some as => some ⟨n, t, k, as⟩
      | none => none
    | _, _, _, _ => none
  | _ => none

/-- The server directory a JSON text denotes: an object whose member `servers`
is an array of server entries. -/
def readDirectory (text : Bytes) : Option ServersJSON :=
  match parseJson text with
  | some (.obj ms) =>
    match member (str "servers") ms with
    | some (.arr items) =>
      match readAll readServer items with
      | some ss => some ⟨ss⟩
      | none => none
    | _ => none
  | _ => none

/-- The standard base64 alphabet (RFC 4648). -/
def base64Alphabet : Bytes :=
  str "ABCDEFGHIJKLMNOPQRSTUVWXYZabcdefghijklmnopqrstuvwxyz0123456789+/"

/-- The six-bit value of a base64 character. -/
def base64Value (c : Nat) : Option Nat :=
  if c ∈ base64Alphabet then some (base64Alphabet.indexOf c) else none

/-- Standard base64 decoding with padding (RFC 4648, canonical form): groups of
four characters give three bytes; a final group may end in one or two `=`. -/
def base64Decode : Bytes → Option Bytes
  | [] => some []
  | [a, b, c, d] =>
    match base64Value a, base64Value b with
    | some x, some y =>
      if c = 61 ∧ d = 61 then
        if y % 16 = 0 then some [x * 4 + y / 16] else none
      else
        match base64Value c with
        | none => none
        | some z =>
          if d = 61 then
            if z % 4 = 0 then some [x * 4 + y / 16, (y % 16) * 16 + z / 4] else none
          else
            match base64Value d with
            | none => none
            | some w => some [x * 4 + y / 16, (y % 16) * 16 + z / 4, (z % 4) * 64 + w]
    | _, _ => none
  | a :: b :: c :: d :: rest =>
    match base64Value a, base64Value b, base64Value c, base64Value d, base64Decode rest with
    | some x, some y, some z, some w, some out =>
      some ((x * 4 + y / 16) :: ((y % 16) * 16 + z / 4) :: ((z % 4) * 64 + w) :: out)
    | _, _, _, _, _ => none
  | _ => none

/-- An address of the form `host:port`: a non-empty host without a colon, a
colon, and a non-empty decimal port. -/
def isHostPort (a : Bytes) : Bool :=
  let host := a.takeWhile (fun c => c != 58)
  let port := a.drop (host.length + 1)
  host.length < a.length && host != [] && port != [] && port.all (fun c => 48 ≤ c && c ≤ 57)

/-! ## Concrete runs used as examples -/

/-- A file system with no files. -/
def emptyEnv : Env :=
  ⟨fun _ => .error (.ext "open: no such file or directory"), ⟨[], none⟩, fun _ => []⟩

/-- A pre-computed hash argument: 128 hexadecimal digits in both letter cases. -/
def sampleHash : Bytes := (List.replicate 8 (str "0123456789abCDef")).flatten

/-- The nonce that `sampleHash` denotes. -/
def sampleNonce : Bytes := (List.replicate 8 [1, 35, 69, 103, 137, 171, 205, 239]).flatten

/-- A command line `notary -verify -hash <sampleHash> file`. -/
def sampleFlags : Flags := ⟨true, [], sampleHash, [str "file"]⟩

/-- A chain of one link whose nonce is `nonce`. -/
def oneLink (nonce : Bytes) : Chain := ⟨[⟨str "Google", .mk nonce, []⟩]⟩

/-- A package `roughtime` that reads an empty directory, loads the chain `c`
and lets `VerifyChain` return `verdict`. -/
def stubRoughtime (c : Chain) (verdict : Bytes × Option Error) : Roughtime :=
  ⟨fun _ => (some ⟨[]⟩, none), fun _ => (c, none), fun _ _ => verdict, fun _ _ => ([], none)⟩

/-- A file system holding the file `a` with contents `01` and the file `b` with
contents `02`, and nothing else. -/
def twoFiles (name : Bytes) : Except Error Reader :=
  if name = str "a" then .ok ⟨[1], none⟩
  else if name = str "b" then .ok ⟨[2], none⟩
  else .error (.ext "open: no such file or directory")

/-- A file system holding only `servers.json`, with contents `[]`. -/
def serversFile (name : Bytes) : Except Error Reader :=
  if name = str "servers.json" then .ok ⟨str "[]", none⟩
  else .error (.ext "open: no such file or directory")

/-- A `ReadServersJSON` that reports what it was given to read: the text read
becomes the name of the only server; it fails on a reader that fails. -/
def echoRoughtime : Roughtime :=
  ⟨fun r => match r.err with
      | some e => (none, some e)
      | none => (some ⟨[⟨r.data, [], [], []⟩]⟩, none),
    fun _ => (⟨[]⟩, none), fun _ _ => ([], none), fun _ _ => ([], none)⟩

/-- A chain of one link whose nonce is not the sample nonce. -/
def otherChain : Chain := oneLink (str "other")

/-- A package `roughtime` that loads `otherChain` and whose `VerifyChain`
rejects it. -/
def rejectingRoughtime : Roughtime :=
  stubRoughtime otherChain ([], some (.ext "signature invalid"))

/-- A package `roughtime` that loads a chain bound to the sample nonce and whose
`VerifyChain` accepts it with the report `info`. -/
def acceptingRoughtime (info : Bytes) : Roughtime :=
  stubRoughtime (oneLink sampleNonce) (info, none)

/-- The environment whose file system is `twoFiles`, for any SHA-512 function. -/
def twoFilesEnv (sha512 : Bytes → Bytes) : Env := ⟨twoFiles, ⟨[], none⟩, sha512⟩

/-- A command line `notary a`. -/
def hashFlags : Flags := ⟨false, [], [], [str "a"]⟩

/-- The environment whose file system is `serversFile`. -/
def serversEnv : Env := ⟨serversFile, ⟨[], none⟩, fun _ => []⟩

/-- The run reaches the five steps of the verify branch (a positional argument
is present) and all of them succeed: serverList, hashExternal, LoadChain and
VerifyChain return a nil error, VerifyChain returns the report `info`, and the
chain has a link 0 whose nonce compares equal to the expected nonce. -/
def VerifyPasses (env : Env) (rt : Roughtime) (fl : Flags) (info : Bytes) : Prop :=
  1 ≤ fl.NArg ∧
  ∃ (servers : Option ServersJSON) (nonce : Slice) (c : Chain) (l : Link) (rest : List Link),
    serverList env rt fl.serversJSON = (servers, none) ∧
    hashExternal env fl fl.hashParam (fl.Arg 0) = (nonce, none) ∧
    rt.LoadChain env.stdin = (c, none) ∧
    rt.VerifyChain c servers = (info, none) ∧
    c.Links = l :: rest ∧ Compare l.NonceOrBlind nonce = 0

/-! # Theorems -/

/-! ## `bytes.Compare` -/

theorem compareBytes_eq_zero_iff : ∀ (a b : Bytes), compareBytes a b = 0 ↔ a = b
  | [], [] => by simp [compareBytes]
  | [], _ :: _ => by simp [compareBytes]
  | _ :: _, [] => by simp [compareBytes]
  | x :: xs, y :: ys => by
    have ih := compareBytes_eq_zero_iff xs ys
    unfold compareBytes
    by_cases h1 : x < y
    · simp only [h1, if_true, List.cons.injEq]
      constructor
      · intro h; cases h
      · rintro ⟨rfl, _⟩; omega
    · by_cases h2 : y < x
      · simp only [h1, h2, if_true, if_false, List.cons.injEq]
        constructor
        · intro h; cases h
        · rintro ⟨rfl, _⟩; omega
      · have : x = y := by omega
        simp [h1, h2, ih, this]

theorem Compare_eq_zero_iff (a b : Slice) : Compare a b = 0 ↔ a.bytes = b.bytes :=
  compareBytes_eq_zero_iff a.bytes b.bytes

/-- Two byte sequences are equal exactly when they have the same length and the
same byte at every index. -/
theorem bytes_eq_iff (a b : Bytes) :
    a = b ↔ a.length = b.length ∧ ∀ i, i < b.length → a.getD i 0 = b.getD i 0 := by
  constructor
  · rintro rfl; exact ⟨rfl, fun _ _ => rfl⟩
  · rintro ⟨hl, hi⟩
    apply List.ext_getElem hl
    intro i h1 h2
    have := hi i h2
    rw [List.getD_eq_getElem _ _ h1, List.getD_eq_getElem _ _ h2] at this
    exact this

/-! ## `encoding/hex` -/

theorem hexDigitsLower_eq :
    hexDigitsLower = [48, 49, 50, 51, 52, 53, 54, 55, 56, 57, 97, 98, 99, 100, 101, 102] := by
  decide

theorem hexDigitsUpper_eq :
    hexDigitsUpper = [48, 49, 50, 51, 52, 53, 54, 55, 56, 57, 65, 66, 67, 68, 69, 70] := by
  decide

theorem isHexDigit_iff (c : Nat) :
    isHexDigit c ↔ (48 ≤ c ∧ c ≤ 57) ∨ (97 ≤ c ∧ c ≤ 102) ∨ (65 ≤ c ∧ c ≤ 70) := by
  unfold isHexDigit
  rw [hexDigitsLower_eq, hexDigitsUpper_eq]
  simp only [List.mem_cons, List.mem_singleton, List.not_mem_nil, or_false]
  omega

theorem fromHexChar_of_isHexDigit (c : Nat) (h : isHexDigit c) :
    fromHexChar c = some (hexValue c) ∧ hexValue c < 16 := by
  rw [isHexDigit_iff] at h
  have hc : c < 103 := by omega
  interval_cases c <;> first | (exfalso; omega) | decide

theorem fromHexChar_eq_none (c : Nat) (h : ¬ isHexDigit c) : fromHexChar c = none := by
  rw [isHexDigit_iff] at h
  unfold fromHexChar
  rw [if_neg (by omega), if_neg (by omega), if_neg (by omega)]

theorem fromHexChar_isSome_iff (c : Nat) : (∃ v, fromHexChar c = some v) ↔ isHexDigit c := by
  constructor
  · rintro ⟨v, hv⟩
    by_contra h
    rw [fromHexChar_eq_none c h] at hv
    cases hv
  · intro h
    exact ⟨_, (fromHexChar_of_isHexDigit c h).1⟩

theorem shift_or (a b : Nat) (ha : a < 16) (hb : b < 16) :
    ((a <<< 4) ||| b) % 256 = 16 * a + b := by
  interval_cases a <;> interval_cases b <;> rfl

/-- Decoding an even number of hexadecimal digits succeeds and gives one byte
per pair of digits. -/
theorem hexDecode_ok : ∀ (n : Nat) (s : Bytes), s.length = 2 * n → (∀ c ∈ s, isHexDigit c) →
    (hexDecode s).2 = none ∧ (hexDecode s).1.length = n ∧
    ∀ i, i < n → (hexDecode s).1.getD i 0 =
      16 * hexValue (s.getD (2 * i) 0) + hexValue (s.getD (2 * i + 1) 0) := by
  intro n
  induction n with
  | zero =>
    intro s hs _
    have : s = [] := List.length_eq_zero.mp (by omega)
    subst this
    simp [hexDecode]
  | succ n ih =>
    intro s hs hhex
    match s, hs, hhex with
    | p :: q :: rest, hs, hhex =>
      have hp := fromHexChar_of_isHexDigit p (hhex p (by simp))
      have hq := fromHexChar_of_isHexDigit q (hhex q (by simp))
      have hrest := ih rest (by simp at hs; omega) (fun c hc => hhex c (by simp [hc]))
      simp only [hexDecode, hp.1, hq.1]
      refine ⟨hrest.1, by simp [hrest.2.1], ?_⟩
      intro i hi
      cases i with
      | zero => simp [shift_or _ _ hp.2 hq.2]
      | succ j =>
        have := hrest.2.2 j (by omega)
        simp only [List.getD_cons_succ, this]
        have e1 : 2 * (j + 1) = (2 * j) + 1 + 1 := by ring
        rw [e1]
        simp only [List.getD_cons_succ]
    | [], hs, _ => simp at hs
    | [_], hs, _ => simp at hs; omega

/-- Decoding reports no error exactly on an even number of hexadecimal digits. -/
theorem hexDecode_err_none_iff (s : Bytes) :
    (hexDecode s).2 = none ↔ (s.length % 2 = 0 ∧ ∀ c ∈ s, isHexDigit c) := by
  induction s using hexDecode.induct with
  | case1 => simp [hexDecode]
  | case2 p hp => simp [hexDecode, hp]
  | case3 p v hp => simp [hexDecode, hp]
  | case4 p q rest hp =>
    have : ¬ isHexDigit p := fun h => by
      rw [(fromHexChar_of_isHexDigit p h).1] at hp; cases hp
    simp [hexDecode, hp, this]
  | case5 p q rest a hp hq =>
    have : ¬ isHexDigit q := fun h => by
      rw [(fromHexChar_of_isHexDigit q h).1] at hq; cases hq
    simp [hexDecode, hp, hq, this]
  | case6 p q rest a hp b hq ih =>
    have h1 : isHexDigit p := (fromHexChar_isSome_iff p).mp ⟨a, hp⟩
    have h2 : isHexDigit q := (fromHexChar_isSome_iff q).mp ⟨b, hq⟩
    simp only [hexDecode, hp, hq, ih, List.length_cons, List.mem_cons]
    constructor
    · rintro ⟨hl, hh⟩
      refine ⟨by omega, ?_⟩
      rintro c (rfl | rfl | hc)
      · exact h1
      · exact h2
      · exact hh c hc
    · rintro ⟨hl, hh⟩
      exact ⟨by omega, fun c hc => hh c (Or.inr (Or.inr hc))⟩

/-- Replacing every digit by one with the same value does not change what is decoded. -/
theorem hexDecode_map (f : Nat → Nat) : ∀ (n : Nat) (s : Bytes), s.length ≤ n →
    (∀ c ∈ s, isHexDigit c ∧ fromHexChar (f c) = fromHexChar c) →
    hexDecode (s.map f) = hexDecode s := by
  intro n
  induction n with
  | zero =>
    intro s hs _
    have : s = [] := List.length_eq_zero.mp (by omega)
    subst this
    rfl
  | succ n ih =>
    intro s hs h
    match s, hs, h with
    | [], _, _ => rfl
    | [p], _, h =>
      have hp := h p (by simp)
      simp only [List.map, hexDecode, hp.2, (fromHexChar_of_isHexDigit p hp.1).1]
    | p :: q :: rest, hs, h =>
      have hp := h p (by simp)
      have hq := h q (by simp)
      have hr := ih rest (by simp at hs; omega) (fun c hc => h c (by simp [hc]))
      simp only [List.map, hexDecode, hp.2, hq.2, hr, (fromHexChar_of_isHexDigit p hp.1).1,
        (fromHexChar_of_isHexDigit q hq.1).1]

theorem upperByte_hex (c : Nat) (h : isHexDigit c) :
    isHexDigit (upperByte c) ∧ fromHexChar (upperByte c) = fromHexChar c := by
  rw [isHexDigit_iff] at h
  have hc : c < 103 := by omega
  interval_cases c <;> first | (exfalso; omega) | decide

theorem lowerByte_hex (c : Nat) (h : isHexDigit c) :
    isHexDigit (lowerByte c) ∧ fromHexChar (lowerByte c) = fromHexChar c := by
  rw [isHexDigit_iff] at h
  have hc : c < 103 := by omega
  interval_cases c <;> first | (exfalso; omega) | decide

theorem hexDecode_toLower (s : Bytes) (h : ∀ c ∈ s, isHexDigit c) :
    hexDecode (toLower s) = hexDecode s :=
  hexDecode_map lowerByte s.length s (le_refl _) (fun c hc => ⟨h c hc, (lowerByte_hex c (h c hc)).2⟩)

theorem hexDecode_toUpper (s : Bytes) (h : ∀ c ∈ s, isHexDigit c) :
    hexDecode (toUpper s) = hexDecode s :=
  hexDecode_map upperByte s.length s (le_refl _) (fun c hc => ⟨h c hc, (upperByte_hex c (h c hc)).2⟩)

/-! ## `hashExternal` -/

theorem hashExternal_of_length_128 (env : Env) (fl : Flags) (hashParam name : Bytes)
    (hlen : hashParam.length = 128) :
    hashExternal env fl hashParam name = DecodeString hashParam := by
  unfold hashExternal
  rw [if_pos (by omega), if_pos hlen]

theorem sampleHash_length : sampleHash.length = 128 := by decide!

theorem sampleHash_hex : ∀ c ∈ sampleHash, isHexDigit c := by decide!

/-- C4: for every hashParam of exactly 128 hexadecimal digits and every name,
hashExternal returns no error and a nonce of exactly 64 bytes whose byte i is
16 * value(hashParam[2i]) + value(hashParam[2i+1]); the result is the same for
every name, file system and command line, so no file is opened or hashed. -/
theorem hashExternal_precomputed (env : Env) (fl : Flags) (hashParam name : Bytes)
    (hlen : hashParam.length = 128) (hhex : ∀ c ∈ hashParam, isHexDigit c) :
    ∃ nonce : Bytes,
      hashExternal env fl hashParam name = (.mk nonce, none) ∧
      nonce.length = 64 ∧
      (∀ i, i < 64 → nonce.getD i 0 =
        16 * hexValue (hashParam.getD (2 * i) 0) + hexValue (hashParam.getD (2 * i + 1) 0)) ∧
      ∀ (env2 : Env) (fl2 : Flags) (name2 : Bytes),
        hashExternal env2 fl2 hashParam name2 = (.mk nonce, none) := by
  have h := hexDecode_ok 64 hashParam (by omega) hhex
  refine ⟨(hexDecode hashParam).1, ?_, h.2.1, h.2.2, ?_⟩
  · rw [hashExternal_of_length_128 env fl hashParam name hlen]
    simp only [DecodeString, h.1]
  · intro env2 fl2 name2
    rw [hashExternal_of_length_128 env2 fl2 hashParam name2 hlen]
    simp only [DecodeString, h.1]

/-- The sample hash argument is decoded to 64 bytes in an environment without
files. -/
theorem hashExternal_precomputed_witness :
    sampleHash.length = 128 ∧ (∀ c ∈ sampleHash, isHexDigit c) ∧
    ∃ nonce : Bytes,
      hashExternal emptyEnv sampleFlags sampleHash (str "file") = (.mk nonce, none) ∧
      nonce.length = 64 ∧
      (∀ i, i < 64 → nonce.getD i 0 =
        16 * hexValue (sampleHash.getD (2 * i) 0) + hexValue (sampleHash.getD (2 * i + 1) 0)) ∧
      ∀ (env2 : Env) (fl2 : Flags) (name2 : Bytes),
        hashExternal env2 fl2 sampleHash name2 = (.mk nonce, none) :=
  ⟨sampleHash_length, sampleHash_hex,
    hashExternal_precomputed emptyEnv sampleFlags sampleHash (str "file")
      sampleHash_length sampleHash_hex⟩

/-- C5: for every non-empty hashParam, hashExternal returns a nil error exactly
when hashParam is 128 bytes long and every byte is a hexadecimal digit; when
the length is not 128 it returns a nil nonce and the error "invalid sha512
hash value in hex"; when the length is 128 and some byte is not a hexadecimal
digit it returns a non-nil error. -/
theorem hashExternal_error_iff (env : Env) (fl : Flags) (hashParam name : Bytes)
    (hne : hashParam ≠ []) :
    ((hashExternal env fl hashParam name).2 = none ↔
      hashParam.length = 128 ∧ ∀ c ∈ hashParam, isHexDigit c) ∧
    (hashParam.length ≠ 128 →
      hashExternal env fl hashParam name =
        (.nil, some (.new "invalid sha512 hash value in hex"))) ∧
    (hashParam.length = 128 → (∃ c ∈ hashParam, ¬ isHexDigit c) →
      (hashExternal env fl hashParam name).2 ≠ none) := by
  have hpos : hashParam.length > 0 := List.length_pos.mpr hne
  have hbad : hashParam.length ≠ 128 →
      hashExternal env fl hashParam name =
        (.nil, some (.new "invalid sha512 hash value in hex")) := by
    intro h
    unfold hashExternal
    rw [if_pos hpos, if_neg h]
  have hiff : (hashExternal env fl hashParam name).2 = none ↔
      hashParam.length = 128 ∧ ∀ c ∈ hashParam, isHexDigit c := by
    by_cases hlen : hashParam.length = 128
    · rw [hashExternal_of_length_128 env fl hashParam name hlen]
      simp only [DecodeString, hexDecode_err_none_iff, hlen, true_and]
    · rw [hbad hlen]
      simp [hlen]
  refine ⟨hiff, hbad, ?_⟩
  rintro hlen ⟨c, hc, hnot⟩ hnone
  exact hnot ((hiff.mp hnone).2 c hc)

/-- The three-byte argument `abc` is refused with the length error. -/
theorem hashExternal_error_iff_witness :
    str "abc" ≠ [] ∧
    (((hashExternal emptyEnv sampleFlags (str "abc") (str "file")).2 = none ↔
      (str "abc").length = 128 ∧ ∀ c ∈ str "abc", isHexDigit c) ∧
    ((str "abc").length ≠ 128 →
      hashExternal emptyEnv sampleFlags (str "abc") (str "file") =
        (.nil, some (.new "invalid sha512 hash value in hex"))) ∧
    ((str "abc").length = 128 → (∃ c ∈ str "abc", ¬ isHexDigit c) →
      (hashExternal emptyEnv sampleFlags (str "abc") (str "file")).2 ≠ none)) :=
  ⟨by decide, hashExternal_error_iff emptyEnv sampleFlags (str "abc") (str "file") (by decide)⟩

/-- C9: the pre-computed hash is decoded without regard to letter case: for
every string s of 128 hexadecimal digits, hashExternal gives the same 64-byte
nonce for the upper-cased and the lower-cased form of s; and two -hash
arguments of 128 hexadecimal digits that differ only in letter case give the
same run of main, for every chain, environment and command line. -/
theorem hashExternal_case_insensitive (s : Bytes) (hlen : s.length = 128)
    (hhex : ∀ c ∈ s, isHexDigit c) :
    (∃ nonce : Bytes, nonce.length = 64 ∧
      ∀ (env : Env) (fl : Flags) (name : Bytes),
        hashExternal env fl (toUpper s) name = (.mk nonce, none) ∧
        hashExternal env fl (toLower s) name = (.mk nonce, none)) ∧
    (∀ t : Bytes, t.length = 128 → (∀ c ∈ t, isHexDigit c) → toLower t = toLower s →
      ∀ (env : Env) (rt : Roughtime) (verify : Bool) (serversJSON : Bytes) (args : List Bytes),
        main env rt ⟨verify, serversJSON, t, args⟩ =
          main env rt ⟨verify, serversJSON, s, args⟩) := by
  have h := hexDecode_ok 64 s (by omega) hhex
  constructor
  · refine ⟨(hexDecode s).1, h.2.1, ?_⟩
    intro env fl name
    have hu : (toUpper s).length = 128 := by simp [toUpper, hlen]
    have hl : (toLower s).length = 128 := by simp [toLower, hlen]
    rw [hashExternal_of_length_128 env fl _ name hu, hashExternal_of_length_128 env fl _ name hl]
    simp only [DecodeString, hexDecode_toUpper s hhex, hexDecode_toLower s hhex, h.1, and_self]
  · intro t htlen hthex hcase env rt verify serversJSON args
    have hdec : hexDecode t = hexDecode s := by
      rw [← hexDecode_toLower t hthex, hcase, hexDecode_toLower s hhex]
    have e1 : ∀ (fl : Flags) (name : Bytes), hashExternal env fl t name = DecodeString s := by
      intro fl name
      rw [hashExternal_of_length_128 env fl t name htlen]
      simp only [DecodeString, hdec]
    have e2 : ∀ (fl : Flags) (name : Bytes), hashExternal env fl s name = DecodeString s :=
      fun fl name => hashExternal_of_length_128 env fl s name hlen
    simp only [main, e1, e2, Flags.NArg, Flags.Arg]

theorem sampleHash_upper : (toUpper sampleHash).length = 128 ∧
    (∀ c ∈ toUpper sampleHash, isHexDigit c) ∧ toLower (toUpper sampleHash) = toLower sampleHash ∧
    toUpper sampleHash ≠ sampleHash := by
  decide!

/-- The sample hash argument and its upper-cased form, two different strings,
give the same nonce and the same run. -/
theorem hashExternal_case_insensitive_witness :
    sampleHash.length = 128 ∧ (∀ c ∈ sampleHash, isHexDigit c) ∧
    (∃ nonce : Bytes, nonce.length = 64 ∧
      ∀ (env : Env) (fl : Flags) (name : Bytes),
        hashExternal env fl (toUpper sampleHash) name = (.mk nonce, none) ∧
        hashExternal env fl (toLower sampleHash) name = (.mk nonce, none)) ∧
    toUpper sampleHash ≠ sampleHash ∧
    (∀ (env : Env) (rt : Roughtime) (verify : Bool) (serversJSON : Bytes) (args : List Bytes),
      main env rt ⟨verify, serversJSON, toUpper sampleHash, args⟩ =
        main env rt ⟨verify, serversJSON, sampleHash, args⟩) :=
  ⟨sampleHash_length, sampleHash_hex,
    (hashExternal_case_insensitive sampleHash sampleHash_length sampleHash_hex).1,
    sampleHash_upper.2.2.2,
    (hashExternal_case_insensitive sampleHash sampleHash_length sampleHash_hex).2
      (toUpper sampleHash) sampleHash_upper.1 sampleHash_upper.2.1 sampleHash_upper.2.2.1⟩

/-! ## `main`: the runs of the verify branch, case by case -/

theorem main_usage (env : Env) (rt : Roughtime) (fl : Flags) (ha : fl.NArg < 1) :
    main env rt fl = ⟨[], [], .fatalUsage⟩ := by
  unfold main
  rw [if_pos ha]

theorem main_serverList_err (env : Env) (rt : Roughtime) (fl : Flags) (ha : 1 ≤ fl.NArg)
    (x : Option ServersJSON) (err : Error)
    (hs : serverList env rt fl.serversJSON = (x, some err)) :
    main env rt fl = ⟨[.serverList], [], .fatalErr err⟩ := by
  unfold main
  rw [if_neg (by omega)]
  simp only [hs]

theorem main_hashExternal_err (env : Env) (rt : Roughtime) (fl : Flags) (ha : 1 ≤ fl.NArg)
    (servers : Option ServersJSON) (x : Slice) (err : Error)
    (hs : serverList env rt fl.serversJSON = (servers, none))
    (hh : hashExternal env fl fl.hashParam (fl.Arg 0) = (x, some err)) :
    main env rt fl = ⟨[.serverList, .hashExternal], [], .fatalErr err⟩ := by
  unfold main
  rw [if_neg (by omega)]
  simp only [hs, hh]

theorem main_LoadChain_err (env : Env) (rt : Roughtime) (fl : Flags) (hv : fl.verify = true)
    (ha : 1 ≤ fl.NArg) (servers : Option ServersJSON) (nonce : Slice) (x : Chain) (err : Error)
    (hs : serverList env rt fl.serversJSON = (servers, none))
    (hh : hashExternal env fl fl.hashParam (fl.Arg 0) = (nonce, none))
    (hl : rt.LoadChain env.stdin = (x, some err)) :
    main env rt fl = ⟨[.serverList, .hashExternal, .LoadChain], [], .fatalErr err⟩ := by
  unfold main
  rw [if_neg (by omega)]
  simp only [hs, hh, hv, hl, if_true]

theorem main_VerifyChain_err (env : Env) (rt : Roughtime) (fl : Flags) (hv : fl.verify = true)
    (ha : 1 ≤ fl.NArg) (servers : Option ServersJSON) (nonce : Slice) (c : Chain) (x : Bytes)
    (err : Error)
    (hs : serverList env rt fl.serversJSON = (servers, none))
    (hh : hashExternal env fl fl.hashParam (fl.Arg 0) = (nonce, none))
    (hl : rt.LoadChain env.stdin = (c, none))
    (hc : rt.VerifyChain c servers = (x, some err)) :
    main env rt fl =
      ⟨[.serverList, .hashExternal, .LoadChain, .VerifyChain], [], .fatalErr err⟩ := by
  unfold main
  rw [if_neg (by omega)]
  simp only [hs, hh, hv, hl, hc, if_true]

theorem main_no_links (env : Env) (rt : Roughtime) (fl : Flags) (hv : fl.verify = true)
    (ha : 1 ≤ fl.NArg) (servers : Option ServersJSON) (nonce : Slice) (c : Chain) (info : Bytes)
    (hs : serverList env rt fl.serversJSON = (servers, none))
    (hh : hashExternal env fl fl.hashParam (fl.Arg 0) = (nonce, none))
    (hl : rt.LoadChain env.stdin = (c, none))
    (hc : rt.VerifyChain c servers = (info, none))
    (hk : c.Links = []) :
    main env rt fl =
      ⟨[.serverList, .hashExternal, .LoadChain, .VerifyChain, .nonceCheck], [],
        .fatalMsg "chain nonce does not match file"⟩ := by
  unfold main
  rw [if_neg (by omega)]
  simp only [hs, hh, hv, hl, hc, hk, if_true]

theorem main_nonce_differs (env : Env) (rt : Roughtime) (fl : Flags) (hv : fl.verify = true)
    (ha : 1 ≤ fl.NArg) (servers : Option ServersJSON) (nonce : Slice) (c : Chain) (info : Bytes)
    (l : Link) (rest : List Link)
    (hs : serverList env rt fl.serversJSON = (servers, none))
    (hh : hashExternal env fl fl.hashParam (fl.Arg 0) = (nonce, none))
    (hl : rt.LoadChain env.stdin = (c, none))
    (hc : rt.VerifyChain c servers = (info, none))
    (hk : c.Links = l :: rest) (hd : Compare l.NonceOrBlind nonce ≠ 0) :
    main env rt fl =
      ⟨[.serverList, .hashExternal, .LoadChain, .VerifyChain, .nonceCheck], [],
        .fatalMsg "chain nonce does not match file"⟩ := by
  unfold main
  rw [if_neg (by omega)]
  simp only [hs, hh, hv, hl, hc, hk, if_true]
  rw [if_pos hd]

theorem main_verified (env : Env) (rt : Roughtime) (fl : Flags) (hv : fl.verify = true)
    (ha : 1 ≤ fl.NArg) (servers : Option ServersJSON) (nonce : Slice) (c : Chain) (info : Bytes)
    (l : Link) (rest : List Link)
    (hs : serverList env rt fl.serversJSON = (servers, none))
    (hh : hashExternal env fl fl.hashParam (fl.Arg 0) = (nonce, none))
    (hl : rt.LoadChain env.stdin = (c, none))
    (hc : rt.VerifyChain c servers = (info, none))
    (hk : c.Links = l :: rest) (hd : Compare l.NonceOrBlind nonce = 0) :
    main env rt fl =
      ⟨[.serverList, .hashExternal, .LoadChain, .VerifyChain, .nonceCheck, .Printf],
        Printf info, .returned⟩ := by
  unfold main
  rw [if_neg (by omega)]
  simp only [hs, hh, hv, hl, hc, hk, if_true]
  rw [if_neg (by simp [hd])]

/-- A run with `-verify` that returns passed all five steps. -/
theorem main_returned_passes (env : Env) (rt : Roughtime) (fl : Flags) (hv : fl.verify = true)
    (h : (main env rt fl).exit = .returned ∨ Step.Printf ∈ (main env rt fl).steps) :
    ∃ info, VerifyPasses env rt fl info := by
  by_cases ha : fl.NArg < 1
  · rw [main_usage env rt fl ha] at h
    simp at h
  have ha1 : 1 ≤ fl.NArg := by omega
  rcases hs : serverList env rt fl.serversJSON with ⟨servers, _ | err⟩
  swap
  · rw [main_serverList_err env rt fl ha1 _ _ hs] at h
    simp at h
  rcases hh : hashExternal env fl fl.hashParam (fl.Arg 0) with ⟨nonce, _ | err⟩
  swap
  · rw [main_hashExternal_err env rt fl ha1 _ _ _ hs hh] at h
    simp at h
  rcases hl : rt.LoadChain env.stdin with ⟨c, _ | err⟩
  swap
  · rw [main_LoadChain_err env rt fl hv ha1 _ _ _ _ hs hh hl] at h
    simp at h
  rcases hc : rt.VerifyChain c servers with ⟨info, _ | err⟩
  swap
  · rw [main_VerifyChain_err env rt fl hv ha1 _ _ _ _ _ hs hh hl hc] at h
    simp at h
  rcases hk : c.Links with _ | ⟨l, rest⟩
  · rw [main_no_links env rt fl hv ha1 _ _ _ _ hs hh hl hc hk] at h
    simp at h
  by_cases hd : Compare l.NonceOrBlind nonce = 0
  · exact ⟨info, ha1, servers, nonce, c, l, rest, hs, hh, hl, hc, hk, hd⟩
  · rw [main_nonce_differs env rt fl hv ha1 _ _ _ _ _ _ hs hh hl hc hk hd] at h
    simp at h

/-- A run with `-verify` writes nothing to standard output unless it returns. -/
theorem main_failed_silent (env : Env) (rt : Roughtime) (fl : Flags) (hv : fl.verify = true)
    (h : (main env rt fl).exit ≠ .returned) : (main env rt fl).stdout = [] := by
  by_cases ha : fl.NArg < 1
  · rw [main_usage env rt fl ha]
  have ha1 : 1 ≤ fl.NArg := by omega
  rcases hs : serverList env rt fl.serversJSON with ⟨servers, _ | err⟩
  swap
  · rw [main_serverList_err env rt fl ha1 _ _ hs]
  rcases hh : hashExternal env fl fl.hashParam (fl.Arg 0) with ⟨nonce, _ | err⟩
  swap
  · rw [main_hashExternal_err env rt fl ha1 _ _ _ hs hh]
  rcases hl : rt.LoadChain env.stdin with ⟨c, _ | err⟩
  swap
  · rw [main_LoadChain_err env rt fl hv ha1 _ _ _ _ hs hh hl]
  rcases hc : rt.VerifyChain c servers with ⟨info, _ | err⟩
  swap
  · rw [main_VerifyChain_err env rt fl hv ha1 _ _ _ _ _ hs hh hl hc]
  rcases hk : c.Links with _ | ⟨l, rest⟩
  · rw [main_no_links env rt fl hv ha1 _ _ _ _ hs hh hl hc hk]
  by_cases hd : Compare l.NonceOrBlind nonce = 0
  · rw [main_verified env rt fl hv ha1 _ _ _ _ _ _ hs hh hl hc hk hd] at h
    simp at h
  · rw [main_nonce_differs env rt fl hv ha1 _ _ _ _ _ _ hs hh hl hc hk hd]

/-! ## `main`: the claims about the verify branch -/

theorem sampleHash_nonce (env : Env) (fl : Flags) (name : Bytes) :
    hashExternal env fl sampleHash name = (.mk sampleNonce, none) := by
  rw [hashExternal_of_length_128 env fl sampleHash name sampleHash_length]
  decide!

theorem sampleFlags_serverList (c : Chain) (verdict : Bytes × Option Error) :
    serverList emptyEnv (stubRoughtime c verdict) sampleFlags.serversJSON = (some ⟨[]⟩, none) := by
  rfl

/-- C1, as the code behaves: with a loaded chain whose link 0 nonce differs
from the expected nonce and a VerifyChain that returns an error, the run ends
with VerifyChain's error, not with the nonce-mismatch message: VerifyChain
runs before the nonce is compared. -/
theorem nonce_mismatch_reported_after_VerifyChain :
    sampleFlags.verify = true ∧
    hashExternal emptyEnv sampleFlags sampleFlags.hashParam (sampleFlags.Arg 0) =
      (.mk sampleNonce, none) ∧
    rejectingRoughtime.LoadChain emptyEnv.stdin = (otherChain, none) ∧
    otherChain.Links.map Link.NonceOrBlind = [.mk (str "other")] ∧
    str "other" ≠ sampleNonce ∧
    main emptyEnv rejectingRoughtime sampleFlags =
      ⟨[.serverList, .hashExternal, .LoadChain, .VerifyChain], [],
        .fatalErr (.ext "signature invalid")⟩ ∧
    (main emptyEnv rejectingRoughtime sampleFlags).exit ≠
      .fatalMsg "chain nonce does not match file" := by
  have hm : main emptyEnv rejectingRoughtime sampleFlags =
      ⟨[.serverList, .hashExternal, .LoadChain, .VerifyChain], [],
        .fatalErr (.ext "signature invalid")⟩ :=
    main_VerifyChain_err emptyEnv rejectingRoughtime sampleFlags rfl (by decide) _ _ _ _ _
      (sampleFlags_serverList _ _) (sampleHash_nonce _ _ _) rfl rfl
  refine ⟨rfl, sampleHash_nonce _ _ _, rfl, rfl, by decide, hm, ?_⟩
  rw [hm]
  decide

/-- C1, amended: in verify mode, for every loaded chain whose link 0 nonce
differs from the expected nonce, the run fails and writes nothing to standard
output; VerifyChain is called before the nonce is compared, so when VerifyChain
returns an error that error is the one reported, and when VerifyChain succeeds
the failure is "chain nonce does not match file". -/
theorem verify_nonce_mismatch_outcome (env : Env) (rt : Roughtime) (fl : Flags)
    (servers : Option ServersJSON) (nonce : Slice) (c : Chain) (l : Link) (rest : List Link)
    (hv : fl.verify = true) (ha : 1 ≤ fl.NArg)
    (hs : serverList env rt fl.serversJSON = (servers, none))
    (hh : hashExternal env fl fl.hashParam (fl.Arg 0) = (nonce, none))
    (hl : rt.LoadChain env.stdin = (c, none))
    (hk : c.Links = l :: rest) (hne : l.NonceOrBlind.bytes ≠ nonce.bytes) :
    (main env rt fl).exit ≠ .returned ∧ (main env rt fl).stdout = [] ∧
    (∀ info, rt.VerifyChain c servers = (info, none) →
      (main env rt fl).exit = .fatalMsg "chain nonce does not match file") ∧
    (∀ x err, rt.VerifyChain c servers = (x, some err) →
      (main env rt fl).exit = .fatalErr err ∧
      (main env rt fl).steps = [.serverList, .hashExternal, .LoadChain, .VerifyChain]) := by
  have hd : Compare l.NonceOrBlind nonce ≠ 0 := fun h => hne ((Compare_eq_zero_iff _ _).mp h)
  have hok : ∀ info, rt.VerifyChain c servers = (info, none) →
      main env rt fl =
        ⟨[.serverList, .hashExternal, .LoadChain, .VerifyChain, .nonceCheck], [],
          .fatalMsg "chain nonce does not match file"⟩ :=
    fun info hc => main_nonce_differs env rt fl hv ha _ _ _ _ _ _ hs hh hl hc hk hd
  have herr : ∀ x err, rt.VerifyChain c servers = (x, some err) →
      main env rt fl =
        ⟨[.serverList, .hashExternal, .LoadChain, .VerifyChain], [], .fatalErr err⟩ :=
    fun x err hc => main_VerifyChain_err env rt fl hv ha _ _ _ _ _ hs hh hl hc
  refine ⟨?_, ?_, fun info hc => by rw [hok info hc], fun x err hc => by rw [herr x err hc]; simp⟩
  · rcases hc : rt.VerifyChain c servers with ⟨info, _ | err⟩
    · rw [hok info hc]; simp
    · rw [herr info err hc]; simp
  · rcases hc : rt.VerifyChain c servers with ⟨info, _ | err⟩
    · rw [hok info hc]
    · rw [herr info err hc]

/-- The run on a rejected chain with a foreign nonce ends with the error of
VerifyChain. -/
theorem verify_nonce_mismatch_outcome_witness :
    (main emptyEnv rejectingRoughtime sampleFlags).exit ≠ .returned ∧
    (main emptyEnv rejectingRoughtime sampleFlags).stdout = [] ∧
    (∀ info, rejectingRoughtime.VerifyChain otherChain (some ⟨[]⟩) = (info, none) →
      (main emptyEnv rejectingRoughtime sampleFlags).exit =
        .fatalMsg "chain nonce does not match file") ∧
    (∀ x err, rejectingRoughtime.VerifyChain otherChain (some ⟨[]⟩) = (x, some err) →
      (main emptyEnv rejectingRoughtime sampleFlags).exit = .fatalErr err ∧
      (main emptyEnv rejectingRoughtime sampleFlags).steps =
        [.serverList, .hashExternal, .LoadChain, .VerifyChain]) :=
  verify_nonce_mismatch_outcome emptyEnv rejectingRoughtime sampleFlags (some ⟨[]⟩)
    (.mk sampleNonce) otherChain ⟨str "Google", .mk (str "other"), []⟩ [] rfl (by decide)
    (sampleFlags_serverList _ _) (sampleHash_nonce _ _ _) rfl rfl (by decide)

/-- C2: in verify mode the run returns (reaches the report output) only if the
chain has a link 0 whose NonceOrBlind has the same length as the expected
nonce and the same byte at every index; for a loaded chain with no links, or
whose link 0 nonce differs from the expected nonce in length or in some byte,
the run fails, writes nothing, and, when VerifyChain succeeds as well, the
failure is "chain nonce does not match file". -/
theorem verify_requires_matching_nonce (env : Env) (rt : Roughtime) (fl : Flags)
    (hv : fl.verify = true) :
    ((main env rt fl).exit = .returned →
      ∃ (servers : Option ServersJSON) (nonce : Slice) (c : Chain) (info : Bytes) (l : Link)
        (rest : List Link),
        serverList env rt fl.serversJSON = (servers, none) ∧
        hashExternal env fl fl.hashParam (fl.Arg 0) = (nonce, none) ∧
        rt.LoadChain env.stdin = (c, none) ∧
        rt.VerifyChain c servers = (info, none) ∧
        c.Links = l :: rest ∧
        l.NonceOrBlind.len = nonce.len ∧
        ∀ i, i < nonce.len → l.NonceOrBlind.bytes.getD i 0 = nonce.bytes.getD i 0) ∧
    (∀ (servers : Option ServersJSON) (nonce : Slice) (c : Chain),
      1 ≤ fl.NArg →
      serverList env rt fl.serversJSON = (servers, none) →
      hashExternal env fl fl.hashParam (fl.Arg 0) = (nonce, none) →
      rt.LoadChain env.stdin = (c, none) →
      (c.Links = [] ∨ ∃ (l : Link) (rest : List Link), c.Links = l :: rest ∧
        (l.NonceOrBlind.len ≠ nonce.len ∨
          ∃ i, i < nonce.len ∧ l.NonceOrBlind.bytes.getD i 0 ≠ nonce.bytes.getD i 0)) →
      (main env rt fl).exit ≠ .returned ∧ (main env rt fl).stdout = [] ∧
      ∀ info, rt.VerifyChain c servers = (info, none) →
        (main env rt fl).exit = .fatalMsg "chain nonce does not match file") := by
  constructor
  · intro hret
    obtain ⟨info, _, servers, nonce, c, l, rest, hs, hh, hl, hc, hk, hd⟩ :=
      main_returned_passes env rt fl hv (Or.inl hret)
    have heq := (bytes_eq_iff _ _).mp ((Compare_eq_zero_iff _ _).mp hd)
    exact ⟨servers, nonce, c, info, l, rest, hs, hh, hl, hc, hk, heq.1, heq.2⟩
  · intro servers nonce c ha hs hh hl hbad
    have hfail : ∀ info, rt.VerifyChain c servers = (info, none) →
        main env rt fl =
          ⟨[.serverList, .hashExternal, .LoadChain, .VerifyChain, .nonceCheck], [],
            .fatalMsg "chain nonce does not match file"⟩ := by
      intro info hc
      rcases hbad with hk | ⟨l, rest, hk, hdiff⟩
      · exact main_no_links env rt fl hv ha _ _ _ _ hs hh hl hc hk
      · refine main_nonce_differs env rt fl hv ha _ _ _ _ _ _ hs hh hl hc hk ?_
        intro hd
        have heq := (bytes_eq_iff _ _).mp ((Compare_eq_zero_iff _ _).mp hd)
        rcases hdiff with hlen | ⟨i, hi, hbyte⟩
        · exact hlen heq.1
        · exact hbyte (heq.2 i hi)
    have hexit : (main env rt fl).exit ≠ .returned := by
      rcases hc : rt.VerifyChain c servers with ⟨info, _ | err⟩
      · rw [hfail info hc]; simp
      · rw [main_VerifyChain_err env rt fl hv ha _ _ _ _ _ hs hh hl hc]; simp
    exact ⟨hexit, main_failed_silent env rt fl hv hexit, fun info hc => by rw [hfail info hc]⟩

theorem sample_passes (info : Bytes) :
    VerifyPasses emptyEnv (acceptingRoughtime info) sampleFlags info :=
  ⟨by decide, some ⟨[]⟩, .mk sampleNonce, oneLink sampleNonce,
    ⟨str "Google", .mk sampleNonce, []⟩, [], sampleFlags_serverList _ _, sampleHash_nonce _ _ _,
    rfl, rfl, rfl, (Compare_eq_zero_iff _ _).mpr rfl⟩

theorem sample_run (info : Bytes) :
    main emptyEnv (acceptingRoughtime info) sampleFlags =
      ⟨[.serverList, .hashExternal, .LoadChain, .VerifyChain, .nonceCheck, .Printf],
        Printf info, .returned⟩ :=
  main_verified emptyEnv (acceptingRoughtime info) sampleFlags rfl (by decide) (some ⟨[]⟩)
    (.mk sampleNonce) (oneLink sampleNonce) info ⟨str "Google", .mk sampleNonce, []⟩ []
    (sampleFlags_serverList _ _) (sampleHash_nonce _ _ _) rfl rfl rfl
    ((Compare_eq_zero_iff _ _).mpr rfl)

/-- A run on a chain bound to the sample nonce returns, and its link 0 nonce is
the expected one; a run on a chain without links ends with the mismatch
message. -/
theorem verify_requires_matching_nonce_witness :
    sampleFlags.verify = true ∧
    (main emptyEnv (acceptingRoughtime (str "ok")) sampleFlags).exit = .returned ∧
    (∃ (servers : Option ServersJSON) (nonce : Slice) (c : Chain) (info : Bytes) (l : Link)
      (rest : List Link),
      serverList emptyEnv (acceptingRoughtime (str "ok")) sampleFlags.serversJSON =
        (servers, none) ∧
      hashExternal emptyEnv sampleFlags sampleFlags.hashParam (sampleFlags.Arg 0) =
        (nonce, none) ∧
      (acceptingRoughtime (str "ok")).LoadChain emptyEnv.stdin = (c, none) ∧
      (acceptingRoughtime (str "ok")).VerifyChain c servers = (info, none) ∧
      c.Links = l :: rest ∧
      l.NonceOrBlind.len = nonce.len ∧
      ∀ i, i < nonce.len → l.NonceOrBlind.bytes.getD i 0 = nonce.bytes.getD i 0) ∧
    (main emptyEnv (stubRoughtime ⟨[]⟩ (str "ok", none)) sampleFlags).exit =
      .fatalMsg "chain nonce does not match file" :=
  ⟨rfl, by rw [sample_run],
    (verify_requires_matching_nonce emptyEnv (acceptingRoughtime (str "ok")) sampleFlags rfl).1
      (by rw [sample_run]),
    ((verify_requires_matching_nonce emptyEnv (stubRoughtime ⟨[]⟩ (str "ok", none)) sampleFlags
      rfl).2 (some ⟨[]⟩) (.mk sampleNonce) ⟨[]⟩ (by decide) (sampleFlags_serverList _ _)
      (sampleHash_nonce _ _ _) rfl (Or.inl rfl)).2.2 (str "ok") rfl⟩

/-- A format without a percent sign is written as it is. -/
theorem Printf_of_no_percent (format : Bytes) (h : 37 ∉ format) : Printf format = format := by
  have htw : List.takeWhile (fun c => c != 37) format = format := by
    rw [List.takeWhile_eq_self_iff]
    intro c hc
    have : c ≠ 37 := fun e => h (e ▸ hc)
    simpa using this
  unfold Printf doPrintfLoop
  simp only [List.drop_zero, htw, Nat.zero_add, ge_iff_le, le_refl, if_true]

/-- C3: verification is all or nothing.  In a run with -verify the report is
printed exactly when serverList, hashExternal, LoadChain and VerifyChain all
return without error and the link 0 nonce check passes, and then standard
output is what Printf writes for the report (the report itself when it has no
percent sign); in every other run nothing is written to standard output, the
run does not return, and the steps performed stop at the first one that fails:
after a serverList or hashExternal error LoadChain and VerifyChain are not
called. -/
theorem verify_all_or_nothing (env : Env) (rt : Roughtime) (fl : Flags)
    (hv : fl.verify = true) :
    (Step.Printf ∈ (main env rt fl).steps ↔ ∃ info, VerifyPasses env rt fl info) ∧
    (∀ info, VerifyPasses env rt fl info →
      main env rt fl =
        ⟨[.serverList, .hashExternal, .LoadChain, .VerifyChain, .nonceCheck, .Printf],
          Printf info, .returned⟩) ∧
    (∀ info, VerifyPasses env rt fl info → 37 ∉ info → (main env rt fl).stdout = info) ∧
    ((¬ ∃ info, VerifyPasses env rt fl info) →
      (main env rt fl).stdout = [] ∧ (main env rt fl).exit ≠ .returned) ∧
    (fl.NArg < 1 → (main env rt fl).steps = []) ∧
    (1 ≤ fl.NArg → ∀ x err, serverList env rt fl.serversJSON = (x, some err) →
      (main env rt fl).steps = [.serverList]) ∧
    (1 ≤ fl.NArg → ∀ servers x err, serverList env rt fl.serversJSON = (servers, none) →
      hashExternal env fl fl.hashParam (fl.Arg 0) = (x, some err) →
      (main env rt fl).steps = [.serverList, .hashExternal]) ∧
    (1 ≤ fl.NArg → ∀ servers nonce x err, serverList env rt fl.serversJSON = (servers, none) →
      hashExternal env fl fl.hashParam (fl.Arg 0) = (nonce, none) →
      rt.LoadChain env.stdin = (x, some err) →
      (main env rt fl).steps = [.serverList, .hashExternal, .LoadChain]) ∧
    (1 ≤ fl.NArg → ∀ servers nonce c x err,
      serverList env rt fl.serversJSON = (servers, none) →
      hashExternal env fl fl.hashParam (fl.Arg 0) = (nonce, none) →
      rt.LoadChain env.stdin = (c, none) →
      rt.VerifyChain c servers = (x, some err) →
      (main env rt fl).steps = [.serverList, .hashExternal, .LoadChain, .VerifyChain]) := by
  have hpass : ∀ info, VerifyPasses env rt fl info →
      main env rt fl =
        ⟨[.serverList, .hashExternal, .LoadChain, .VerifyChain, .nonceCheck, .Printf],
          Printf info, .returned⟩ := by
    rintro info ⟨ha, servers, nonce, c, l, rest, hs, hh, hl, hc, hk, hd⟩
    exact main_verified env rt fl hv ha _ _ _ _ _ _ hs hh hl hc hk hd
  refine ⟨⟨fun h => main_returned_passes env rt fl hv (Or.inr h), ?_⟩, hpass, ?_, ?_, ?_, ?_,
    ?_, ?_, ?_⟩
  · rintro ⟨info, hp⟩
    rw [hpass info hp]
    simp
  · intro info hp hno
    rw [hpass info hp]
    exact Printf_of_no_percent info hno
  · intro hno
    have hexit : (main env rt fl).exit ≠ .returned :=
      fun h => hno (main_returned_passes env rt fl hv (Or.inl h))
    exact ⟨main_failed_silent env rt fl hv hexit, hexit⟩
  · intro ha
    rw [main_usage env rt fl ha]
  · intro ha x err hs
    rw [main_serverList_err env rt fl ha _ _ hs]
  · intro ha servers x err hs hh
    rw [main_hashExternal_err env rt fl ha _ _ _ hs hh]
  · intro ha servers nonce x err hs hh hl
    rw [main_LoadChain_err env rt fl hv ha _ _ _ _ hs hh hl]
  · intro ha servers nonce c x err hs hh hl hc
    rw [main_VerifyChain_err env rt fl hv ha _ _ _ _ _ hs hh hl hc]

/-- On a rejected chain no report is printed; on an accepted chain bound to the
sample nonce the report "ok" is all that is written. -/
theorem verify_all_or_nothing_witness :
    sampleFlags.verify = true ∧
    (Step.Printf ∈ (main emptyEnv rejectingRoughtime sampleFlags).steps ↔
      ∃ info, VerifyPasses emptyEnv rejectingRoughtime sampleFlags info) ∧
    main emptyEnv (acceptingRoughtime (str "ok")) sampleFlags =
      ⟨[.serverList, .hashExternal, .LoadChain, .VerifyChain, .nonceCheck, .Printf],
        Printf (str "ok"), .returned⟩ ∧
    (main emptyEnv (acceptingRoughtime (str "ok")) sampleFlags).stdout = str "ok" :=
  ⟨rfl, (verify_all_or_nothing emptyEnv rejectingRoughtime sampleFlags rfl).1,
    (verify_all_or_nothing emptyEnv (acceptingRoughtime (str "ok")) sampleFlags rfl).2.1
      (str "ok") (sample_passes (str "ok")),
    (verify_all_or_nothing emptyEnv (acceptingRoughtime (str "ok")) sampleFlags rfl).2.2.1
      (str "ok") (sample_passes (str "ok")) (by decide)⟩

/-! ## `fmt.Printf(info)` -/

/-- C10, as the code behaves: on full success standard output is what
fmt.Printf writes when the report is used as the format string.  With the
report "hi%d" the output is "hi%!d(MISSING)", and with the report "100%%" it is
"100%": a report containing a percent sign is not written byte for byte. -/
theorem report_is_used_as_format :
    VerifyPasses emptyEnv (acceptingRoughtime (str "hi%d")) sampleFlags (str "hi%d") ∧
    main emptyEnv (acceptingRoughtime (str "hi%d")) sampleFlags =
      ⟨[.serverList, .hashExternal, .LoadChain, .VerifyChain, .nonceCheck, .Printf],
        str "hi%!d(MISSING)", .returned⟩ ∧
    (main emptyEnv (acceptingRoughtime (str "hi%d")) sampleFlags).stdout ≠ str "hi%d" ∧
    VerifyPasses emptyEnv (acceptingRoughtime (str "100%%")) sampleFlags (str "100%%") ∧
    (main emptyEnv (acceptingRoughtime (str "100%%")) sampleFlags).stdout = str "100%" ∧
    (main emptyEnv (acceptingRoughtime (str "100%%")) sampleFlags).stdout ≠ str "100%%" := by
  have h1 : Printf (str "hi%d") = str "hi%!d(MISSING)" := by decide!
  have h2 : Printf (str "100%%") = str "100%" := by decide!
  refine ⟨sample_passes _, ?_, ?_, sample_passes _, ?_, ?_⟩
  · rw [sample_run, h1]
  · rw [sample_run, h1]; decide
  · rw [sample_run, h2]
  · rw [sample_run, h2]; decide

/-! ## `serverList` and the built-in directory -/

/-- C6: the built-in directory is used only when no file is named:
serverList("") gives ReadServersJSON a reader of exactly the text of
defaultServers; for every non-empty name it gives ReadServersJSON the file
called name, and when that file cannot be opened it returns a nil directory
and the open error, without reading the defaults. -/
theorem serverList_sources (env : Env) (rt : Roughtime) :
    serverList env rt [] = rt.ReadServersJSON ⟨str defaultServersText, none⟩ ∧
    ∀ name : Bytes, name ≠ [] →
      (∀ f, env.fileOpen name = .ok f → serverList env rt name = rt.ReadServersJSON f) ∧
      (∀ err, env.fileOpen name = .error err → serverList env rt name = (none, some err)) := by
  refine ⟨rfl, ?_⟩
  intro name hne
  constructor
  · intro f hf
    unfold serverList
    simp only [hne, ne_eq, not_false_eq_true, if_true, hf]
  · intro err herr
    unfold serverList
    simp only [hne, ne_eq, not_false_eq_true, if_true, herr]

/-- With a reader that reports what it was given: the defaults for the empty
name, the file for `servers.json`, the open error for a missing file. -/
theorem serverList_sources_witness :
    str "servers.json" ≠ [] ∧ str "missing.json" ≠ [] ∧
    serverList serversEnv echoRoughtime [] =
      (some ⟨[⟨str defaultServersText, [], [], []⟩]⟩, none) ∧
    serverList serversEnv echoRoughtime (str "servers.json") =
      (some ⟨[⟨str "[]", [], [], []⟩]⟩, none) ∧
    serverList serversEnv echoRoughtime (str "missing.json") =
      (none, some (.ext "open: no such file or directory")) :=
  ⟨by decide, by decide,
    (serverList_sources serversEnv echoRoughtime).1,
    ((serverList_sources serversEnv echoRoughtime).2 (str "servers.json") (by decide)).1
      ⟨str "[]", none⟩ rfl,
    ((serverList_sources serversEnv echoRoughtime).2 (str "missing.json") (by decide)).2
      (.ext "open: no such file or directory") rfl⟩

/-- C7: the defaultServers document is a server directory of the stated shape:
exactly two servers, named "Google" and "Cloudflare" (distinct names), each
with publicKeyType "ed25519", a publicKey that is standard base64 for exactly
32 bytes, and a non-empty addresses list whose entries have protocol "udp" and
an address of the form host:port. -/
theorem defaultServers_shape :
    ∃ doc : ServersJSON, readDirectory defaultServers = some doc ∧
      doc.servers.length = 2 ∧
      doc.servers.map Server.name = [str "Google", str "Cloudflare"] ∧
      (doc.servers.map Server.name).Nodup ∧
      ∀ s ∈ doc.servers,
        s.publicKeyType = str "ed25519" ∧
        (base64Decode s.publicKey).map List.length = some 32 ∧
        s.addresses ≠ [] ∧
        ∀ a ∈ s.addresses, a.protocol = str "udp" ∧ isHostPort a.address = true := by
  refine ⟨⟨[⟨str "Google", str "ed25519", str "etPaaIxcBMY1oUeGpwvPMCJMwlRVNxv51KK/tktoJTQ=",
        [⟨str "udp", str "roughtime.sandbox.google.com:2002"⟩]⟩,
      ⟨str "Cloudflare", str "ed25519", str "gD63hSj3ScS+wuOeGrubXlq35N1c5Lby/S+T7MNTjxo=",
        [⟨str "udp", str "roughtime.cloudflare.com:2002"⟩]⟩]⟩, ?_, rfl, ?_, ?_, ?_⟩
  · decide!
  · decide!
  · decide!
  · decide!

/-! ## `hashFile` -/

/-- Whatever name it is given, hashFile reads the file named by the first
positional argument. -/
theorem hashFile_reads_first_argument (env : Env) (fl : Flags) (name : Bytes) :
    hashFile env fl name = hashFile env fl (fl.Arg 0) ∧
    (∀ f, env.fileOpen (fl.Arg 0) = .ok f → f.err = none →
      hashFile env fl name = (.mk (env.sha512 f.data), none)) ∧
    (∀ err, env.fileOpen (fl.Arg 0) = .error err → hashFile env fl name = (.nil, some err)) ∧
    (∀ f err, env.fileOpen (fl.Arg 0) = .ok f → f.err = some err →
      hashFile env fl name = (.nil, some err)) := by
  refine ⟨rfl, ?_, ?_, ?_⟩
  · intro f hf he
    simp only [hashFile, hf, he]
  · intro err he
    simp only [hashFile, he]
  · intro f err hf he
    simp only [hashFile, hf, he]

/-- C8, as the code behaves: with the command line `notary a` and the files a
(contents 01) and b (contents 02), hashFile("b") and hashExternal("", "b")
return the digest of the contents of a, not of b, and hashFile("missing")
returns that digest too instead of the open error for the missing file: the
file opened is flag.Arg(0), not the one called name. -/
theorem hashFile_ignores_name (sha512 : Bytes → Bytes) :
    hashFlags.Arg 0 = str "a" ∧
    twoFiles (str "a") = .ok ⟨[1], none⟩ ∧
    twoFiles (str "b") = .ok ⟨[2], none⟩ ∧
    twoFiles (str "missing") = .error (.ext "open: no such file or directory") ∧
    hashFile (twoFilesEnv sha512) hashFlags (str "b") = (.mk (sha512 [1]), none) ∧
    hashExternal (twoFilesEnv sha512) hashFlags [] (str "b") = (.mk (sha512 [1]), none) ∧
    hashFile (twoFilesEnv sha512) hashFlags (str "missing") = (.mk (sha512 [1]), none) := by
  refine ⟨by decide, rfl, rfl, rfl, rfl, rfl, rfl⟩

end Notary
